import Mathlib

/-
Verification development for the pysrt subtitle library
(src/pysrt/srtitem.py and src/pysrt/srtfile.py), a Python 2 code base.

Machine integers are modelled as Nat (Python ints are unbounded), Python
strings as Lean String / List Char, fallible code as Except, and the
in-place mutation of SubRipFile as explicit state passing.  The class
SubRipTime (srttime.py) is not part of the source tree; everything that
depends on it is modelled from the specification and flagged as such in
its doc comment.
-/

/-- Modelled from the spec: srttime.py is missing from the source tree.
Section 3 of the spec defines a Time Value as an integer ordinal of
elapsed milliseconds, with total order by ordinal. -/
structure SubRipTime where
  ordinal : Nat
deriving DecidableEq, Repr

/-- Modelled from the spec: two-digit zero padding used by the canonical
HH:MM:SS,mmm rendering of a Time Value. -/
def pad2 (n : Nat) : String :=
  if n < 10 then "0" ++ toString n else toString n

/-- Modelled from the spec: three-digit zero padding for milliseconds. -/
def pad3 (n : Nat) : String :=
  if n < 10 then "00" ++ toString n
  else if n < 100 then "0" ++ toString n
  else toString n

/-- Modelled from the spec: Format() of a Time Value always renders
HH:MM:SS,mmm with a comma separator, components derived from the ordinal. -/
def SubRipTime.format (t : SubRipTime) : String :=
  pad2 (t.ordinal / 3600000) ++ ":" ++
  pad2 (t.ordinal % 3600000 / 60000) ++ ":" ++
  pad2 (t.ordinal % 60000 / 1000) ++ "," ++
  pad3 (t.ordinal % 1000)

/-- Numeric value of a decimal digit character. -/
def digitVal (c : Char) : Nat := c.toNat - 48

/-- Value of a list of decimal digit characters, as computed by int(). -/
def natFromDigits (l : List Char) : Nat :=
  l.foldl (fun a c => 10 * a + digitVal c) 0

/-- Modelled from the spec: Parse(text) of a Time Value matches exactly
the fixed pattern DD:DD:DD{,|.}DDD (two-digit hours, minutes, seconds,
three-digit milliseconds, separator comma or period) and fails otherwise. -/
def SubRipTime.from_string (s : String) : Except String SubRipTime :=
  match s.data with
  | [h1, h2, c1, m1, m2, c2, s1, s2, sep, d1, d2, d3] =>
    if h1.isDigit && h2.isDigit && (c1 == ':') && m1.isDigit && m2.isDigit &&
       (c2 == ':') && s1.isDigit && s2.isDigit && ((sep == ',') || (sep == '.')) &&
       d1.isDigit && d2.isDigit && d3.isDigit then
      .ok ⟨natFromDigits [h1, h2] * 3600000 + natFromDigits [m1, m2] * 60000 +
           natFromDigits [s1, s2] * 1000 + natFromDigits [d1, d2, d3]⟩
    else .error s
  | _ => .error s

/-- SubRipItem(index, start, end, text) from srtitem.py: index is an int,
start and end are SubRipTime values, text a unicode string. -/
structure SubRipItem where
  index : Nat
  start : SubRipTime
  end_ : SubRipTime
  text : String
deriving DecidableEq, Repr

/-- SubRipItem.__unicode__: renders the format template
%s\n%s --> %s\n%s\n applied to (index, start, end, text); the times
render through the spec-modelled SubRipTime format. -/
def SubRipItem.unicode (it : SubRipItem) : String :=
  toString it.index ++ "\n" ++ it.start.format ++ " --> " ++
  it.end_.format ++ "\n" ++ it.text ++ "\n"

/-! ## A small regular-expression engine

The compiled pattern RE_ITEM of srtitem.py is transliterated into the
following syntax and matched by a backtracking matcher with the exact
Python semantics of the flags re.DOTALL and re.MULTILINE: the dot matches
every character, the caret matches at position 0 and after each newline,
the dollar matches at the end of the subject and before each newline.
Every repetition in the pattern repeats a single-character class, so
greedy matching with backtracking is implemented by trying the longest
run first and shortening it one character at a time. -/

/-- Names of the four capture groups of RE_ITEM. -/
inductive GName where
  | gIndex | gStart | gEnd | gText
deriving DecidableEq, Repr

/-- Capture spans (half-open position intervals) for the four groups. -/
structure Groups where
  gIndex : Option (Nat × Nat) := none
  gStart : Option (Nat × Nat) := none
  gEnd : Option (Nat × Nat) := none
  gText : Option (Nat × Nat) := none
deriving DecidableEq, Repr

/-- Record the span of one capture group. -/
def setSpan (gs : Groups) (g : GName) (a b : Nat) : Groups :=
  match g with
  | .gIndex => { gs with gIndex := some (a, b) }
  | .gStart => { gs with gStart := some (a, b) }
  | .gEnd => { gs with gEnd := some (a, b) }
  | .gText => { gs with gText := some (a, b) }

/-- Regular expressions as used by RE_ITEM: anchors, single-character
classes, greedy star and plus of a class, concatenation, capture groups. -/
inductive Re where
  | eps
  | bos
  | eosZ
  | bolM
  | eolM
  | cls (p : Char → Bool)
  | clsStar (p : Char → Bool)
  | clsPlus (p : Char → Bool)
  | seq (a b : Re)
  | grp (g : GName) (r : Re)

/-- Length of the maximal run of characters satisfying p at the head. -/
def runLen (p : Char → Bool) : List Char → Nat
  | [] => 0
  | c :: cs => if p c then runLen p cs + 1 else 0

/-- Greedy backtracking over a repetition count: try the continuation at
base + n, base + n - 1, ..., base, first success wins. -/
def tryDown (k : Nat → Groups → Option Groups) (gs : Groups) (base : Nat) :
    Nat → Option Groups
  | 0 => k base gs
  | n + 1 =>
    match k (base + (n + 1)) gs with
    | some r => some r
    | none => tryDown k gs base n

/-- The matcher, in continuation-passing style.  mat r s pos gs k attempts
to match r in subject s at position pos with capture state gs and calls
the continuation k with the new position and captures on success. -/
def mat : Re → List Char → Nat → Groups → (Nat → Groups → Option Groups) →
    Option Groups
  | .eps, _, pos, gs, k => k pos gs
  | .bos, _, pos, gs, k => if pos = 0 then k pos gs else none
  | .eosZ, s, pos, gs, k => if pos = s.length then k pos gs else none
  | .bolM, s, pos, gs, k =>
    if pos = 0 then k pos gs
    else if s.get? (pos - 1) = some '\n' then k pos gs else none
  | .eolM, s, pos, gs, k =>
    if pos = s.length then k pos gs
    else if s.get? pos = some '\n' then k pos gs else none
  | .cls p, s, pos, gs, k =>
    match s.get? pos with
    | some c => if p c then k (pos + 1) gs else none
    | none => none
  | .clsStar p, s, pos, gs, k => tryDown k gs pos (runLen p (s.drop pos))
  | .clsPlus p, s, pos, gs, k =>
    match runLen p (s.drop pos) with
    | 0 => none
    | n + 1 => tryDown k gs (pos + 1) n
  | .seq a b, s, pos, gs, k => mat a s pos gs (fun p2 g2 => mat b s p2 g2 k)
  | .grp g r, s, pos, gs, k =>
    mat r s pos gs (fun p2 g2 => k p2 (setSpan g2 g pos p2))

/-- Concatenation of a list of regular expressions. -/
def rcat (l : List Re) : Re := l.foldr .seq .eps

/-- A literal character. -/
def lit (c : Char) : Re := .cls (· == c)

/-- Python \s for a byte pattern: space, tab, newline, carriage return,
form feed, vertical tab. -/
def isSpacePy (c : Char) : Bool :=
  c == ' ' || c == '\t' || c == '\n' || c == '\r' ||
  c == '\x0b' || c == '\x0c'

/-- TIME_PATTERN of srtitem.py: two digits, colon, two digits, colon, two
digits, comma or period, three digits. -/
def timeRe : Re :=
  rcat [.cls Char.isDigit, .cls Char.isDigit, lit ':',
        .cls Char.isDigit, .cls Char.isDigit, lit ':',
        .cls Char.isDigit, .cls Char.isDigit,
        .cls (fun c => c == ',' || c == '.'),
        .cls Char.isDigit, .cls Char.isDigit, .cls Char.isDigit]

/-- The character class of the bracket expression on the timecode line of
ITEM_PATTERN: space, X, Y, colon, or a digit. -/
def xyCls (c : Char) : Bool :=
  c == ' ' || c == 'X' || c == 'Y' || c == ':' || c.isDigit

/-- The timecode line and everything after it: the start capture, a
whitespace character, the arrow, a whitespace character, the end capture,
the bracket-class repetition, the dollar and caret anchors, the text
capture (dot-star under DOTALL) and the final end-of-subject anchor. -/
def bodyRe : Re :=
  .seq (.grp .gStart timeRe)
    (.seq (.cls isSpacePy)
      (.seq (lit '-') (.seq (lit '-') (.seq (lit '>')
        (.seq (.cls isSpacePy)
          (.seq (.grp .gEnd timeRe)
            (.seq (.clsStar xyCls)
              (.seq .eolM (.seq .bolM
                (.seq (.grp .gText (.clsStar (fun _ => true))) .eosZ))))))))))

/-- The caret anchor that opens the timecode line, then bodyRe. -/
def tail2 : Re := .seq .bolM bodyRe

/-- Everything of ITEM_PATTERN after the index capture group: the dollar
anchor closing the index line, then tail2. -/
def tailRe : Re := .seq .eolM tail2

/-- RE_ITEM of srtitem.py: start-of-subject anchor, index capture of one
or more digits, then tailRe, compiled with DOTALL and MULTILINE. -/
def ITEM_RE : Re :=
  .seq .bos (.seq (.grp .gIndex (.clsPlus Char.isDigit)) tailRe)

/-- RE_ITEM.match source: anchored match at position 0. -/
def rmatch (s : List Char) : Option Groups :=
  mat ITEM_RE s 0 {} (fun _ gs => some gs)

/-- The substring of a subject given by a capture span. -/
def spanStr (s : List Char) (ab : Nat × Nat) : String :=
  ⟨(s.drop ab.1).take (ab.2 - ab.1)⟩

/-- SubRipItem.from_string: delete every carriage return from the source,
match RE_ITEM, raise InvalidItem(source) (modelled as Except.error with
the original source) when the match fails; otherwise convert the start
and end captures through SubRipTime.from_string and build the item from
the group dictionary. -/
def SubRipItem.from_string (source : String) : Except String SubRipItem :=
  let src := source.data.filter (fun c => c ≠ '\r')
  match rmatch src with
  | none => .error source
  | some gs =>
    match gs.gIndex, gs.gStart, gs.gEnd, gs.gText with
    | some i, some a, some b, some t =>
      match SubRipTime.from_string (spanStr src a),
            SubRipTime.from_string (spanStr src b) with
      | .ok st, .ok en =>
        .ok ⟨natFromDigits ((src.drop i.1).take (i.2 - i.1)), st, en, spanStr src t⟩
      | .error m, _ => .error m
      | _, .error m => .error m
    | _, _, _, _ => .error source

/-! ## The file aggregate (srtfile.py) -/

/-- SubRipFile: the ordered collection of items plus the metadata fields
of its constructor, namely the private newline string (None when never
set), the source path (None when absent) and the save encoding. -/
structure SubRipFile where
  data : List SubRipItem
  _eol : Option String := none
  path : Option String := none
  encoding : String := "utf-8"
deriving DecidableEq, Repr

/-- Error policy constant ERROR_PASS of SubRipFile. -/
def ERROR_PASS : Nat := 0

/-- Error policy constant ERROR_LOG of SubRipFile. -/
def ERROR_LOG : Nat := 1

/-- Error policy constant ERROR_RAISE of SubRipFile. -/
def ERROR_RAISE : Nat := 2

/-- Class attribute DEFAULT_ENCODING of SubRipFile. -/
def DEFAULT_ENCODING : String := "utf_8"

/-- Class attribute BOMS of SubRipFile: the five Unicode byte-order-mark
signatures paired with their codec names, in the priority order of the
source tuple. -/
def BOMS : List (List Nat × String) :=
  [([0xFF, 0xFE, 0x00, 0x00], "utf_32_le"),
   ([0x00, 0x00, 0xFE, 0xFF], "utf_32_be"),
   ([0xFF, 0xFE], "utf_16_le"),
   ([0xFE, 0xFF], "utf_16_be"),
   ([0xEF, 0xBB, 0xBF], "utf_8")]

/-- Class attribute BIGGER_BOM: the maximum signature length. -/
def BIGGER_BOM : Nat := (BOMS.map (fun be => be.1.length)).foldl max 0

/-- The loop body of _detect_encoding: walk the BOMS tuples in order and
return the first codec whose signature is a prefix of the byte prefix. -/
def findBomEnc : List (List Nat × String) → List Nat → Option String
  | [], _ => none
  | (bom, enc) :: rest, first_chars =>
    if bom.isPrefixOf first_chars then some enc else findBomEnc rest first_chars

/-- SubRipFile._detect_encoding: read the first BIGGER_BOM bytes of the
stream, return the codec of the first matching signature, and the
default encoding when none matches. -/
def _detect_encoding (stream : List Nat) : String :=
  let first_chars := stream.take BIGGER_BOM
  match findBomEnc BOMS first_chars with
  | some enc => enc
  | none => DEFAULT_ENCODING

/-- The claim side of C8, written from the words of the specification:
test the stream itself against the five signatures in priority order
UTF-32LE, UTF-32BE, UTF-16LE, UTF-16BE, UTF-8 and return the encoding of
the first signature that prefixes the stream, defaulting to UTF-8. -/
def detectEncodingSpec (stream : List Nat) : String :=
  if [0xFF, 0xFE, 0x00, 0x00].isPrefixOf stream then "utf_32_le"
  else if [0x00, 0x00, 0xFE, 0xFF].isPrefixOf stream then "utf_32_be"
  else if [0xFF, 0xFE].isPrefixOf stream then "utf_16_le"
  else if [0xFE, 0xFF].isPrefixOf stream then "utf_16_be"
  else if [0xEF, 0xBB, 0xBF].isPrefixOf stream then "utf_8"
  else "utf_8"

/-- SubRipFile._get_eol: the private field when it is truthy, else the
platform line separator, which is passed in explicitly as linesep. -/
def _get_eol (linesep : String) (f : SubRipFile) : String :=
  match f._eol with
  | some s => if s = "" then linesep else s
  | none => linesep

/-- SubRipFile._set_eol: the private field becomes its own value when that
value is truthy, else the assigned value. -/
def _set_eol (f : SubRipFile) (eol : String) : SubRipFile :=
  { f with _eol := match f._eol with
      | some s => if s = "" then some eol else some s
      | none => some eol }

/-- A diagnostic record: absolutized source locator, loop index, message. -/
def Diag := Option String × Nat × String
deriving instance DecidableEq, Repr for Diag

/-- SubRipFile._handle_error: absolutize the locator (the external
os.path.abspath is passed in as abspath), then raise the error extended
with locator and index under ERROR_RAISE, emit one stderr diagnostic
under ERROR_LOG, and do nothing otherwise. -/
def _handle_error (abspath : String → String) (error : String)
    (error_handling : Nat) (path : Option String) (index : Nat) :
    Except Diag (Option Diag) :=
  let path := path.map abspath
  if error_handling = ERROR_RAISE then .error (path, index, error)
  else if error_handling = ERROR_LOG then .ok (some (path, index, error))
  else .ok none

/-- Python str.strip with no argument: remove leading and trailing
whitespace. -/
def pyStrip (s : String) : String :=
  ⟨((s.data.dropWhile isSpacePy).reverse.dropWhile isSpacePy).reverse⟩

/-- The loop of SubRipFile.read over the enumerated lines: a line that is
non-blank after stripping is accumulated into the buffer; a blank line
flushes the buffer, and a flushed block that is non-blank is parsed, the
item being appended on success and the error being handed to
_handle_error otherwise, which either aborts the read or extends the
stderr diagnostics. -/
def readAux (abspath : String → String) (error_handling : Nat)
    (path : Option String) :
    List String → Nat → List String → List SubRipItem → List Diag →
    Except Diag (List SubRipItem × List Diag)
  | [], _, _, acc, errs => .ok (acc, errs)
  | line :: rest, index, buf, acc, errs =>
    if pyStrip line ≠ "" then
      readAux abspath error_handling path rest (index + 1) (buf ++ [line]) acc errs
    else
      let source := String.join buf
      if pyStrip source ≠ "" then
        match SubRipItem.from_string source with
        | .ok item =>
          readAux abspath error_handling path rest (index + 1) [] (acc ++ [item]) errs
        | .error e =>
          match _handle_error abspath e error_handling path index with
          | .error d => .error d
          | .ok od =>
            readAux abspath error_handling path rest (index + 1) [] acc
              (errs ++ od.toList)
      else
        readAux abspath error_handling path rest (index + 1) [] acc errs

/-- SubRipFile.read: iterate over the source lines chained with one extra
newline string, so that a final unterminated block still flushes, and
return the mutated aggregate together with the stderr diagnostics, or the
raised error. -/
def SubRipFile.read (abspath : String → String) (f : SubRipFile)
    (lines : List String) (error_handling : Nat) :
    Except Diag (SubRipFile × List Diag) :=
  match readAux abspath error_handling f.path (lines ++ ["\n"]) 0 [] f.data [] with
  | .ok (entries, errs) => .ok ({ f with data := entries }, errs)
  | .error d => .error d

/-- Modelled from the spec: the spec equips Time Values with
construction, parsing, formatting, arithmetic and comparison only; it
defines no boolean conversion, so under Python 2 a Time Value instance
falls back to default object truthiness, which is always true. -/
def pyTruthyTime (_ : SubRipTime) : Bool := true

/-- Modelled from the spec: Compare of Time Values is the total order
strictly by millisecond ordinal. -/
def SubRipTime.lt (a b : SubRipTime) : Bool := a.ordinal < b.ordinal

/-- SubRipFile.slice: copy the aggregate, then narrow the data by one
filter per truthy bound, each a strict comparison of the item start or
end against the bound, in the fixed order starts_before, starts_after,
ends_before, ends_after. -/
def SubRipFile.slice (f : SubRipFile)
    (starts_before starts_after ends_before ends_after : Option SubRipTime) :
    SubRipFile :=
  let d0 := f.data
  let d1 := match starts_before with
    | some t => if pyTruthyTime t then d0.filter (fun i => i.start.lt t) else d0
    | none => d0
  let d2 := match starts_after with
    | some t => if pyTruthyTime t then d1.filter (fun i => t.lt i.start) else d1
    | none => d1
  let d3 := match ends_before with
    | some t => if pyTruthyTime t then d2.filter (fun i => i.end_.lt t) else d2
    | none => d2
  let d4 := match ends_after with
    | some t => if pyTruthyTime t then d3.filter (fun i => t.lt i.end_) else d3
    | none => d3
  { f with data := d4 }

/-- SubRipItem.__cmp__: compare by start, then by end, through the
spec-modelled Time Value comparison. -/
def itemCmp (a b : SubRipItem) : Ordering :=
  (compare a.start.ordinal b.start.ordinal).then
    (compare a.end_.ordinal b.end_.ordinal)

/-- The non-strict order induced by itemCmp, used for sorting. -/
def itemLe (a b : SubRipItem) : Prop := itemCmp a b ≠ .gt

instance : DecidableRel itemLe := fun a b => by unfold itemLe; infer_instance

/-- UserList.sort on the aggregate data, modelled as a stable insertion
sort by the item comparison. -/
def SubRipFile.sort (f : SubRipFile) : SubRipFile :=
  { f with data := List.insertionSort itemLe f.data }

/-- SubRipFile.clean_indexes: sort in place, then assign each item index
its one-based position in the sorted sequence. -/
def SubRipFile.clean_indexes (f : SubRipFile) : SubRipFile :=
  let g := f.sort
  { g with data := g.data.enum.map (fun p => { p.2 with index := p.1 + 1 }) }

/-- Python `a or b` over an optional string a: b when a is None or empty. -/
def pyOrS (a : Option String) (b : String) : String :=
  match a with
  | some s => if s = "" then b else s
  | none => b

/-- SubRipFile.write_into: resolve the encoding and eol defaults, then
for each item in collection order format it, substitute the output eol
for every newline when the output eol differs from a single newline, and
append the text encoded under the resolved encoding to the sink.  A
written byte chunk is modelled as the pair of the codec name and the
text handed to encode. -/
def SubRipFile.write_into (f : SubRipFile) (sink : List (String × String))
    (encoding eol : Option String) (linesep : String) :
    List (String × String) :=
  let enc := pyOrS encoding f.encoding
  let output_eol := pyOrS eol (_get_eol linesep f)
  f.data.foldl (fun acc item =>
    let string_repr := SubRipItem.unicode item
    let string_repr :=
      if output_eol ≠ "\n" then string_repr.replace "\n" output_eol
      else string_repr
    acc ++ [(enc, string_repr)]) sink

/-- The claim side of C7: one encoded chunk per entry, the text being the
formatted entry with every newline replaced by eol exactly when eol
differs from a single newline character. -/
def serializeEntry (enc eol : String) (item : SubRipItem) : String × String :=
  (enc, if eol = "\n" then SubRipItem.unicode item
        else (SubRipItem.unicode item).replace "\n" eol)

/-! ## Concrete test fixtures -/

/-- An aggregate as built by the SubRipFile constructor defaults. -/
def file0 : SubRipFile := { data := [] }

/-- The three-block stream of the error-policy contract in the spec:
blocks zero and two are well-formed per the documented grammar, block one
has a malformed timecode line. -/
def lines3 : List String :=
  ["1\n", "00:00:01,000 --> 00:00:02,000\n", "Hello\n", "\n",
   "2\n", "bogus --> nonsense\n", "World\n", "\n",
   "3\n", "00:00:05,000 --> 00:00:06,000\n", "Bye\n"]

/-! ## The compiled item pattern matches no string

In ITEM_PATTERN the index group is followed directly by a dollar anchor
and then a caret anchor with nothing in between to consume the newline.
A position accepted by both anchors would have to be preceded by a digit
(the last character of the index group) and by a newline (for the caret)
at once, which is impossible, so the compiled pattern is unsatisfiable. -/

theorem digit_ne_newline {c : Char} (h : c.isDigit = true) : c ≠ '\n' := by
  intro he
  subst he
  exact absurd h (by decide)

theorem runLen_get (p : Char → Bool) :
    ∀ (l : List Char) (i : Nat), i < runLen p l →
      ∃ c, l.get? i = some c ∧ p c = true := by
  intro l
  induction l with
  | nil => intro i h; simp [runLen] at h
  | cons c cs ih =>
    intro i h
    by_cases hp : p c
    · cases i with
      | zero => exact ⟨c, rfl, hp⟩
      | succ j =>
        simp only [runLen, if_pos hp] at h
        obtain ⟨d, hd, hpd⟩ := ih j (by omega)
        exact ⟨d, by simpa using hd, hpd⟩
    · simp [runLen, hp] at h

theorem tryDown_eq_none {k : Nat → Groups → Option Groups} {gs : Groups}
    {base : Nat} : ∀ n, (∀ j, j ≤ n → k (base + j) gs = none) →
    tryDown k gs base n = none := by
  intro n
  induction n with
  | zero =>
    intro h
    have h0 := h 0 (Nat.le_refl 0)
    simpa [tryDown] using h0
  | succ m ih =>
    intro h
    have h1 := h (m + 1) (Nat.le_refl _)
    simp only [tryDown, h1]
    exact ih (fun j hj => h j (by omega))

theorem mat_tailRe_none (s : List Char) (pos : Nat) (gs : Groups)
    (k : Nat → Groups → Option Groups) (hpos : pos ≠ 0) {c : Char}
    (hc : s.get? (pos - 1) = some c) (hd : c.isDigit = true) :
    mat tailRe s pos gs k = none := by
  have hne : ¬ s.get? (pos - 1) = some '\n' := by
    rw [hc]
    intro h
    have hcn : c = '\n' := by injection h
    exact digit_ne_newline hd hcn
  have h2 : mat tail2 s pos gs k = none := by
    show (if pos = 0 then mat bodyRe s pos gs k
          else if s.get? (pos - 1) = some '\n' then mat bodyRe s pos gs k
          else none) = none
    rw [if_neg hpos, if_neg hne]
  show (if pos = s.length then mat tail2 s pos gs k
        else if s.get? pos = some '\n' then mat tail2 s pos gs k
        else none) = none
  rw [h2]
  split <;> simp

theorem mat_ITEM_RE_none (s : List Char) (gs : Groups)
    (k : Nat → Groups → Option Groups) : mat ITEM_RE s 0 gs k = none := by
  show (match runLen Char.isDigit s with
        | 0 => none
        | n + 1 =>
          tryDown (fun p2 g2 => mat tailRe s p2 (setSpan g2 .gIndex 0 p2) k)
            gs 1 n) = none
  cases hn : runLen Char.isDigit s with
  | zero => rfl
  | succ n =>
    apply tryDown_eq_none
    intro j hj
    obtain ⟨c, hc, hcd⟩ := runLen_get Char.isDigit s j (by omega)
    have hj1 : 1 + j - 1 = j := by omega
    exact mat_tailRe_none s (1 + j) _ _ (by omega) (by rw [hj1]; exact hc) hcd

theorem rmatch_eq_none (s : List Char) : rmatch s = none :=
  mat_ITEM_RE_none s {} _

/-- SubRipItem.from_string raises InvalidItem on every input, because the
compiled pattern is unsatisfiable. -/
theorem from_string_always_error (source : String) :
    SubRipItem.from_string source = .error source := by
  simp only [SubRipItem.from_string, rmatch_eq_none]

/-! ## Claims C1 to C4: parsing never succeeds -/

/-- C1: the claim states that for every entry with valid fields, parsing
the formatted form of the entry succeeds and returns an equal entry.  In
the code the compiled item pattern is unsatisfiable, so the parse of the
formatted entry raises InvalidItem instead; this theorem evaluates the
code at the failing input of the claim. -/
theorem parse_of_format_roundtrip_fails :
    SubRipItem.from_string (SubRipItem.unicode ⟨1, ⟨1000⟩, ⟨2000⟩, "Hello"⟩) =
      .error (SubRipItem.unicode ⟨1, ⟨1000⟩, ⟨2000⟩, "Hello"⟩) :=
  from_string_always_error _

/-- C2: the claim states that reading the three-block stream under the
Log policy yields two entries plus exactly one diagnostic carrying block
index one, and that the Pass policy yields the same two entries with no
diagnostics.  The code parses no block at all: under Log it yields zero
entries and three diagnostics whose indices are the stream line indices
3, 7 and 11 at which the blocks were flushed, and under Pass it yields
zero entries and no diagnostics. -/
theorem read_log_three_blocks (abspath : String → String) :
    (SubRipFile.read abspath file0 lines3 ERROR_LOG).toOption.map
        (fun r => (r.1.data, r.2.map (fun d => d.2.1))) =
      some ([], [3, 7, 11]) ∧
    (SubRipFile.read abspath file0 lines3 ERROR_PASS).toOption.map
        (fun r => (r.1.data, r.2)) = some ([], []) :=
  ⟨rfl, rfl⟩

/-- C3: the claim states that under the Raise policy the read aborts at
the first malformed block with an error carrying the zero-based block
index.  On the three-block stream whose second block is the only
malformed one, the code aborts at the very first block, which is
well-formed per the documented grammar, and annotates the error with the
line index 3 of the blank line that flushed it, not with a block index. -/
theorem read_raise_three_blocks (abspath : String → String) :
    SubRipFile.read abspath file0 lines3 ERROR_RAISE =
      .error (none, 3, "1\n00:00:01,000 --> 00:00:02,000\nHello\n") :=
  rfl

/-- C4: the claim states that a block whose timecode line carries extra
trailing tokens from the bracket class is accepted and the tokens
discarded.  The code rejects every block, including this one. -/
theorem rejects_bracket_class_tokens :
    SubRipItem.from_string
        "1\n00:00:01,000 --> 00:00:02,000 X1:000 Y2:300\nHello\n" =
      .error "1\n00:00:01,000 --> 00:00:02,000 X1:000 Y2:300\nHello\n" :=
  from_string_always_error _

/-! ## Claim C5: clean_indexes -/

theorem then_eq_gt (x y : Ordering) :
    x.then y = .gt ↔ (x = .gt ∨ (x = .eq ∧ y = .gt)) := by
  cases x <;> simp [Ordering.then]

theorem itemLe_iff (a b : SubRipItem) :
    itemLe a b ↔
      (a.start.ordinal < b.start.ordinal ∨
       (a.start.ordinal = b.start.ordinal ∧
        a.end_.ordinal ≤ b.end_.ordinal)) := by
  unfold itemLe itemCmp
  rw [Ne, then_eq_gt, Nat.compare_eq_gt, Nat.compare_eq_eq, Nat.compare_eq_gt]
  omega

instance : IsTotal SubRipItem itemLe :=
  ⟨fun a b => by rw [itemLe_iff, itemLe_iff]; omega⟩

instance : IsTrans SubRipItem itemLe :=
  ⟨fun a b c => by rw [itemLe_iff, itemLe_iff, itemLe_iff]; omega⟩

theorem snd_mem_of_mem_enumFrom {α : Type} :
    ∀ (l : List α) (n : Nat) (q : Nat × α), q ∈ l.enumFrom n → q.2 ∈ l := by
  intro l
  induction l with
  | nil => intro n q h; simp [List.enumFrom] at h
  | cons a t ih =>
    intro n q h
    rw [List.enumFrom] at h
    rcases List.mem_cons.mp h with h1 | h2
    · subst h1; exact List.mem_cons_self _ _
    · exact List.mem_cons_of_mem _ (ih (n + 1) q h2)

theorem pairwise_enumFrom {α : Type} {R : α → α → Prop} :
    ∀ (l : List α) (n : Nat), List.Pairwise R l →
      List.Pairwise (fun p q => R p.2 q.2) (l.enumFrom n) := by
  intro l
  induction l with
  | nil => intro n _; simp [List.enumFrom]
  | cons a t ih =>
    intro n h
    rcases List.pairwise_cons.mp h with ⟨ha, ht⟩
    rw [List.enumFrom]
    refine List.Pairwise.cons ?_ (ih (n + 1) ht)
    intro q hq
    exact ha q.2 (snd_mem_of_mem_enumFrom t (n + 1) q hq)

theorem enumFrom_map_succ_fst {α : Type} :
    ∀ (l : List α) (n : Nat),
      (l.enumFrom n).map (fun p => p.1 + 1) = List.range' (n + 1) l.length := by
  intro l
  induction l with
  | nil => intro n; rfl
  | cons a t ih =>
    intro n
    rw [List.enumFrom, List.map_cons, ih (n + 1)]
    rfl

/-- C5: after clean_indexes the entries are non-decreasingly ordered by
the pair (start, end), and the indices read 1, 2, ..., n in order, so the
first index is 1 and consecutive entries have consecutive indices. -/
theorem clean_indexes_sorted_and_consecutive (f : SubRipFile) :
    List.Sorted (fun a b : SubRipItem =>
        a.start.ordinal < b.start.ordinal ∨
        (a.start.ordinal = b.start.ordinal ∧
         a.end_.ordinal ≤ b.end_.ordinal))
      f.clean_indexes.data ∧
    f.clean_indexes.data.map (fun e => e.index) =
      List.range' 1 f.data.length := by
  constructor
  · have hs : List.Sorted itemLe (List.insertionSort itemLe f.data) :=
      List.sorted_insertionSort itemLe f.data
    have he := pairwise_enumFrom (R := itemLe)
      (List.insertionSort itemLe f.data) 0 hs
    have hm := List.Pairwise.map
      (fun p : Nat × SubRipItem => ({ p.2 with index := p.1 + 1 } : SubRipItem))
      (S := fun a b : SubRipItem =>
        a.start.ordinal < b.start.ordinal ∨
        (a.start.ordinal = b.start.ordinal ∧ a.end_.ordinal ≤ b.end_.ordinal))
      (fun p q hpq => (itemLe_iff p.2 q.2).mp hpq) he
    exact hm
  · show ((List.insertionSort itemLe f.data).enumFrom 0 |>.map
        (fun p => ({ p.2 with index := p.1 + 1 } : SubRipItem))).map
        (fun e => e.index) = List.range' 1 f.data.length
    rw [List.map_map]
    have : ((fun e : SubRipItem => e.index) ∘
        (fun p : Nat × SubRipItem => ({ p.2 with index := p.1 + 1 } : SubRipItem))) =
        (fun p : Nat × SubRipItem => p.1 + 1) := rfl
    rw [this, enumFrom_map_succ_fst, List.length_insertionSort]

/-! ## Claims C6 and C10: slice -/

theorem filter_filter_bool {α : Type} (p q : α → Bool) :
    ∀ l : List α, (l.filter p).filter q = l.filter (fun a => p a && q a) := by
  intro l
  induction l with
  | nil => rfl
  | cons a t ih =>
    by_cases hp : p a <;> by_cases hq : q a <;>
      simp [List.filter_cons, hp, hq, ih]

/-- C6: slice returns a new aggregate whose data are exactly the entries
satisfying every supplied bound as a strict comparison by ordinal, in the
original relative order (a single filter pass), omitted bounds imposing
no constraint, and with the metadata fields duplicated from the source;
the source value itself is untouched in this pure model. -/
theorem slice_filters_by_supplied_bounds (f : SubRipFile)
    (sb sa eb ea : Option SubRipTime) :
    (f.slice sb sa eb ea).data = f.data.filter (fun i =>
        sb.all (fun t => i.start.lt t) && sa.all (fun t => t.lt i.start) &&
        eb.all (fun t => i.end_.lt t) && ea.all (fun t => t.lt i.end_)) ∧
    (f.slice sb sa eb ea).path = f.path ∧
    (f.slice sb sa eb ea)._eol = f._eol ∧
    (f.slice sb sa eb ea).encoding = f.encoding := by
  refine ⟨?_, rfl, rfl, rfl⟩
  cases sb <;> cases sa <;> cases eb <;> cases ea <;>
    simp [SubRipFile.slice, pyTruthyTime, Option.all, filter_filter_bool,
      Bool.and_assoc, Bool.and_comm, Bool.and_left_comm]

/-- C10 counterexample: the claim states that a supplied bound whose
value is a Time Value of ordinal 0 behaves exactly as if the bound were
omitted.  On a one-entry aggregate whose entry starts at ordinal 0,
slicing with starts_after at ordinal 0 filters the entry out, while the
call with the bound omitted keeps it. -/
theorem slice_zero_ordinal_bound_differs_from_omitted :
    (SubRipFile.slice { data := [⟨1, ⟨0⟩, ⟨500⟩, "A"⟩] }
        none (some ⟨0⟩) none none).data ≠
    (SubRipFile.slice { data := [⟨1, ⟨0⟩, ⟨500⟩, "A"⟩] }
        none none none none).data := by
  decide

/-- C10 amended: a supplied Time Value bound is always applied, a Time
Value of ordinal 0 included, because a Time Value carries no boolean
conversion and is therefore always truthy; only an omitted bound imposes
no constraint. -/
theorem slice_zero_ordinal_bound_is_applied (f : SubRipFile) :
    (f.slice none (some ⟨0⟩) none none).data =
      f.data.filter (fun i => SubRipTime.lt ⟨0⟩ i.start) := by
  simp [SubRipFile.slice, pyTruthyTime]

/-! ## Claim C7: write_into -/

theorem foldl_append_singleton {α β : Type} (g : α → β) :
    ∀ (l : List α) (s0 : List β),
      l.foldl (fun acc x => acc ++ [g x]) s0 = s0 ++ l.map g := by
  intro l
  induction l with
  | nil => intro s0; simp
  | cons a t ih => intro s0; simp [List.foldl_cons, ih]

/-- C7: write_into emits one encoded chunk per entry in collection order
with no sorting; the encoding resolves to the supplied one or else the
stored one, the eol to the supplied one or else the eol property value,
and every newline of the formatted entry is replaced by the resolved eol
exactly when that eol differs from a single newline character.  The
second conjunct instantiates the defaults: no supplied encoding or eol. -/
theorem write_into_in_order_with_defaults (f : SubRipFile)
    (sink : List (String × String)) (encoding eol : Option String)
    (linesep : String) :
    f.write_into sink encoding eol linesep =
      sink ++ f.data.map (serializeEntry (pyOrS encoding f.encoding)
        (pyOrS eol (_get_eol linesep f))) ∧
    f.write_into sink none none linesep =
      sink ++ f.data.map (serializeEntry f.encoding (_get_eol linesep f)) := by
  have key : ∀ (enc out : String),
      (fun item => (enc, if out ≠ "\n"
          then (SubRipItem.unicode item).replace "\n" out
          else SubRipItem.unicode item)) = serializeEntry enc out := by
    intro enc out
    funext item
    by_cases h : out = "\n" <;> simp [serializeEntry, h]
  constructor
  · show f.data.foldl (fun acc item => acc ++
        [(pyOrS encoding f.encoding,
          if pyOrS eol (_get_eol linesep f) ≠ "\n"
          then (SubRipItem.unicode item).replace "\n" (pyOrS eol (_get_eol linesep f))
          else SubRipItem.unicode item)]) sink = _
    rw [foldl_append_singleton
      (fun item => (pyOrS encoding f.encoding,
        if pyOrS eol (_get_eol linesep f) ≠ "\n"
        then (SubRipItem.unicode item).replace "\n" (pyOrS eol (_get_eol linesep f))
        else SubRipItem.unicode item)), key]
  · show f.data.foldl (fun acc item => acc ++
        [(pyOrS none f.encoding,
          if pyOrS none (_get_eol linesep f) ≠ "\n"
          then (SubRipItem.unicode item).replace "\n" (pyOrS none (_get_eol linesep f))
          else SubRipItem.unicode item)]) sink = _
    rw [foldl_append_singleton
      (fun item => (pyOrS none f.encoding,
        if pyOrS none (_get_eol linesep f) ≠ "\n"
        then (SubRipItem.unicode item).replace "\n" (pyOrS none (_get_eol linesep f))
        else SubRipItem.unicode item)), key]
    rfl

/-! ## Claim C8: encoding detection -/

theorem isPrefixOf_take {α : Type} [DecidableEq α] :
    ∀ (b l : List α) (n : Nat), b.length ≤ n →
      b.isPrefixOf (l.take n) = b.isPrefixOf l := by
  intro b
  induction b with
  | nil => intro l n h; simp [List.isPrefixOf]
  | cons x bs ih =>
    intro l n h
    cases l with
    | nil => simp
    | cons y ls =>
      cases n with
      | zero => exact absurd h (by simp)
      | succ m =>
        simp only [List.take_succ_cons, List.isPrefixOf_cons₂]
        rw [ih ls m (by simpa using h)]

/-- C8: the encoding resolved from a byte stream with no caller-supplied
encoding equals the specification-side chain that tests the five Unicode
signatures against the stream itself in the priority order UTF-32LE,
UTF-32BE, UTF-16LE, UTF-16BE, UTF-8, returning the first that prefixes
the stream and UTF-8 when none matches. -/
theorem detect_encoding_matches_bom_priority (stream : List Nat) :
    _detect_encoding stream = detectEncodingSpec stream := by
  have e1 := isPrefixOf_take [0xFF, 0xFE, 0x00, 0x00] stream 4 (by decide)
  have e2 := isPrefixOf_take [0x00, 0x00, 0xFE, 0xFF] stream 4 (by decide)
  have e3 := isPrefixOf_take [0xFF, 0xFE] stream 4 (by decide)
  have e4 := isPrefixOf_take [0xFE, 0xFF] stream 4 (by decide)
  have e5 := isPrefixOf_take [0xEF, 0xBB, 0xBF] stream 4 (by decide)
  have h4 : BIGGER_BOM = 4 := rfl
  simp only [_detect_encoding, detectEncodingSpec, BOMS, findBomEnc, h4,
    DEFAULT_ENCODING, e1, e2, e3, e4, e5]
  by_cases h1 : [0xFF, 0xFE, 0x00, 0x00].isPrefixOf stream <;>
    by_cases h2 : [0x00, 0x00, 0xFE, 0xFF].isPrefixOf stream <;>
      by_cases h3 : [0xFF, 0xFE].isPrefixOf stream <;>
        by_cases h5 : [0xFE, 0xFF].isPrefixOf stream <;>
          by_cases h6 : [0xEF, 0xBB, 0xBF].isPrefixOf stream <;>
            simp [h1, h2, h3, h5, h6]

/-! ## Claim C9: the eol property -/

/-- C9: once the private newline field holds a non-empty string, any
later assignment through the eol setter leaves the aggregate unchanged,
and while the field was never set the eol getter returns the platform
line separator. -/
theorem eol_first_value_wins_and_default (linesep : String)
    (f : SubRipFile) (e : String) :
    (∀ s, f._eol = some s → s ≠ "" → _set_eol f e = f) ∧
    (f._eol = none → _get_eol linesep f = linesep) := by
  constructor
  · intro s hs hne
    cases f with
    | mk d eo p enc =>
      simp only at hs
      subst hs
      simp [_set_eol, hne]
  · intro h
    cases f with
    | mk d eo p enc =>
      simp only at h
      subst h
      simp [_get_eol]

/-- Witness for C9 at concrete inputs: an aggregate whose newline field
holds a carriage-return-newline ignores a later newline assignment, and
the default aggregate reads back the platform separator. -/
theorem eol_first_value_wins_and_default_witness :
    _set_eol { data := [], _eol := some "\x0d\n", path := none,
               encoding := "utf-8" } "\n" =
      { data := [], _eol := some "\x0d\n", path := none,
        encoding := "utf-8" } ∧
    _get_eol "SEP" file0 = "SEP" :=
  ⟨(eol_first_value_wins_and_default "SEP"
      { data := [], _eol := some "\x0d\n", path := none, encoding := "utf-8" }
      "\n").1 "\x0d\n" rfl (by decide),
   (eol_first_value_wins_and_default "SEP" file0 "\n").2 rfl⟩
